import Mathlib

/-!
Verification of the branching/checkpointing core of shelley-power-toys
(`scripts/lib/db.py` and `scripts/lib/checkpoint.py`).

The Python code is shallowly embedded: SQLite rows become Lean records,
`json.loads` results become an inductive `JsonVal`, and Python runtime
errors that the code does not catch (`AttributeError`, `TypeError`) are
made explicit through `Except PyErr`.

Database rows are produced by `SELECT *`, so a row dict always contains
every column key; a SQL NULL shows up as the value `None`, not as a
missing key.  Consequently `dict.get(key, default)` on such a row never
takes its default.  The embedding reflects this: columns are `Option`s
(`none` = SQL NULL) and the dead defaults of
`msg.get('created_at', now)`, `source.get('cwd', ...)`,
`msg.get('type', 'unknown')`, `msg.get('llm_data', '')` are dropped,
with the NULL value used verbatim exactly as CPython does.
-/

namespace Shelley

/-- A Python value as returned by `json.loads`: `null`/`bool`/`int`/
`str`/`list`/`dict`.  (JSON numbers are modelled as integers; no claim
involves fractional payload numbers.)  Objects are association lists
with the keys of the parsed dict (unique for values coming from
`json.loads`). -/
inductive JsonVal where
  | null : JsonVal
  | bool (b : Bool) : JsonVal
  | num (n : Int) : JsonVal
  | str (s : String) : JsonVal
  | arr (xs : List JsonVal) : JsonVal
  | obj (kvs : List (String × JsonVal)) : JsonVal
deriving Inhabited

/-- Uncaught Python runtime errors that the embedded code can raise. -/
inductive PyErr where
  | attributeError : PyErr
  | typeError : PyErr
deriving DecidableEq, Inhabited

/-- `d.get(k)` on a Python dict (`none` = Python `None` for a missing key). -/
def objGet (kvs : List (String × JsonVal)) (k : String) : Option JsonVal :=
  (kvs.find? (fun kv => kv.1 = k)).map Prod.snd

/-- Python truthiness of a decoded JSON value. -/
def pyTruthy : JsonVal → Bool
  | .null => false
  | .bool b => b
  | .num n => n ≠ 0
  | .str s => s ≠ ""
  | .arr xs => ¬ xs.isEmpty
  | .obj kvs => ¬ kvs.isEmpty

/-- Python truthiness of an optional value (`none` = Python `None`). -/
def optTruthy : Option JsonVal → Bool
  | none => false
  | some v => pyTruthy v

/-- Python `v == k` for an integer literal `k` (`True == 1`, `False == 0`). -/
def pyEqNum (v : JsonVal) (k : Int) : Bool :=
  match v with
  | .num n => n = k
  | .bool b => (if b then (1 : Int) else 0) = k
  | _ => false

/-- Python `o == k` where `o` may be `None` (`None == k` is `False`). -/
def optEqNum (o : Option JsonVal) (k : Int) : Bool :=
  match o with
  | none => false
  | some v => pyEqNum v k

/-- Simplified Python `repr` of a string (single quotes; backslash and
quote escaped).  Only reachable when a content block's `Text` is a JSON
*list* containing strings, which no claim exercises. -/
def pyStrRepr (s : String) : String :=
  "'" ++ (s.foldl (fun acc c =>
    acc ++ (if c = '\\' then "\\\\" else if c = '\'' then "\\'" else String.singleton c)) "") ++ "'"

mutual
/-- Python `repr` of a decoded JSON value. -/
def pyRepr : JsonVal → String
  | .null => "None"
  | .bool true => "True"
  | .bool false => "False"
  | .num n => toString n
  | .str s => pyStrRepr s
  | .arr xs => "[" ++ pyReprItems xs ++ "]"
  | .obj kvs => "\x7b" ++ pyReprPairs kvs ++ "\x7d"

/-- Comma-separated `repr`s of list items. -/
def pyReprItems : List JsonVal → String
  | [] => ""
  | [x] => pyRepr x
  | x :: y :: rest => pyRepr x ++ ", " ++ pyReprItems (y :: rest)

/-- Comma-separated `repr`s of dict entries. -/
def pyReprPairs : List (String × JsonVal) → String
  | [] => ""
  | [(k, v)] => pyStrRepr k ++ ": " ++ pyRepr v
  | (k, v) :: p :: rest => pyStrRepr k ++ ": " ++ pyRepr v ++ ", " ++ pyReprPairs (p :: rest)
end

/-- Python `str` of a decoded JSON value, as used by f-string interpolation. -/
def pyStr : JsonVal → String
  | .str s => s
  | v => pyRepr v

/-- A nullable TEXT column holding an opaque structured payload.
`nullv` is SQL NULL; `strv raw parse` is the stored string together
with the result of `json.loads raw` (`none` when parsing raises
`json.JSONDecodeError`). -/
inductive Payload where
  | nullv : Payload
  | strv (raw : String) (parse : Option JsonVal) : Payload
deriving Inhabited

/-- Python truthiness of the column value (`None` and `''` are falsy). -/
def Payload.truthy : Payload → Bool
  | .nullv => false
  | .strv raw _ => raw ≠ ""

/-- `json.loads` applied to the column value, `none` = `JSONDecodeError`. -/
def Payload.parsed : Payload → Option JsonVal
  | .nullv => none
  | .strv _ p => p

/-- Python `len` of the column value: `len(None)` raises `TypeError`. -/
def Payload.pyLen : Payload → Except PyErr Nat
  | .nullv => .error .typeError
  | .strv raw _ => .ok raw.length

/-- A row of the `messages` relation (`None` = SQL NULL). -/
structure Msg where
  message_id : String
  conversation_id : String
  sequence_id : Int
  type : Option String
  llm_data : Payload
  user_data : Payload
  usage_data : Payload
  display_data : Payload
  created_at : Option String

/-- A row of the `conversations` relation. -/
structure Conv where
  conversation_id : String
  slug : Option String
  user_initiated : Bool
  created_at : String
  updated_at : String
  cwd : Option String
  archived : Bool

/-- The relational store consumed by the core. -/
structure DB where
  conversations : List Conv
  messages : List Msg

/-- `get_conversation`: `SELECT * FROM conversations WHERE conversation_id = ?`
(first matching row; the primary key makes it unique in a real store). -/
def get_conversation (db : DB) (conversation_id : String) : Option Conv :=
  db.conversations.find? (fun c => c.conversation_id = conversation_id)

/-- The `WHERE` clause of `get_messages`. -/
def msgSelected (conversation_id : String) (max_sequence : Option Int) (m : Msg) : Bool :=
  m.conversation_id = conversation_id &&
    (match max_sequence with
     | none => true
     | some s => m.sequence_id ≤ s)

/-- `get_messages`: matching rows ordered ascending by `sequence_id`
(`ORDER BY sequence_id`; the tie order among equal sequence ids is not
specified by SQL, insertion sort stands in for it). -/
def get_messages (db : DB) (conversation_id : String) (max_sequence : Option Int) : List Msg :=
  List.insertionSort (fun a b => a.sequence_id ≤ b.sequence_id)
    (db.messages.filter (msgSelected conversation_id max_sequence))

/-! ## Message summarizer (`get_message_summary`) -/

/-- Python `for content in x`: iterating a list yields its elements, a
string its one-character substrings, a dict its keys; `None`, booleans
and numbers raise `TypeError`. -/
def pyIter : JsonVal → Except PyErr (List JsonVal)
  | .arr xs => .ok xs
  | .str s => .ok (s.data.map (fun c => .str (String.singleton c)))
  | .obj kvs => .ok (kvs.map (fun kv => .str kv.1))
  | _ => .error .typeError

/-- `data.get('Content', [])` followed by iteration: raises
`AttributeError` when `data` is not a dict. -/
def contentBlocks (data : JsonVal) : Except PyErr (List JsonVal) :=
  match data with
  | .obj kvs =>
    match objGet kvs "Content" with
    | none => .ok []
    | some v => pyIter v
  | _ => .error .attributeError

/-- `content.get(k)`: raises `AttributeError` when `content` is not a dict. -/
def blockGet (content : JsonVal) (k : String) : Except PyErr (Option JsonVal) :=
  match content with
  | .obj kvs => .ok (objGet kvs k)
  | _ => .error .attributeError

/-- `content['Text'][:100]` and `len(content['Text'])`: defined for
strings (and lists, rendered through `str`), `TypeError` otherwise. -/
def pySliceFmt : JsonVal → Except PyErr (String × Nat)
  | .str s => .ok (s.take 100, s.length)
  | .arr xs => .ok (pyStr (.arr (xs.take 100)), xs.length)
  | _ => .error .typeError

/-- Render the matched text block: `"{text}{'...' if len(...) > 100 else ''}"`. -/
def renderText (label : String) (v : JsonVal) : Except PyErr String := do
  let (sl, len) ← pySliceFmt v
  .ok (label ++ ": " ++ sl ++ (if len > 100 then "..." else ""))

/-- The `for` loop of the `user` branch: first block with `Type == 2`
and truthy `Text` produces the summary; `none` means the loop fell
through.  (`content.get('Text')` is only evaluated after
`content.get('Type')` succeeded, so it cannot itself raise.) -/
def scanUserBlocks : List JsonVal → Except PyErr (Option String)
  | [] => .ok none
  | c :: rest => do
    let ty ← blockGet c "Type"
    if optEqNum ty 2 then
      let tx ← blockGet c "Text"
      match tx with
      | some v =>
        if pyTruthy v then (renderText "User" v).map some
        else scanUserBlocks rest
      | none => scanUserBlocks rest
    else scanUserBlocks rest

/-- The `for` loop of the `agent` branch: each block is checked for the
text pattern (`Type == 2`, truthy `Text`) first, then for the tool-use
pattern (`Type == 5`, truthy `ToolName`); the first block matching
either pattern decides the summary. -/
def scanAgentBlocks : List JsonVal → Except PyErr (Option String)
  | [] => .ok none
  | c :: rest => do
    let ty ← blockGet c "Type"
    if optEqNum ty 2 then
      let tx ← blockGet c "Text"
      match tx with
      | some v =>
        if pyTruthy v then (renderText "Agent" v).map some
        else scanAgentBlocks rest
      | none => scanAgentBlocks rest
    else if optEqNum ty 5 then
      let tool ← blockGet c "ToolName"
      match tool with
      | some tv =>
        if pyTruthy tv then .ok (some ("Agent: [using " ++ pyStr tv ++ "]"))
        else scanAgentBlocks rest
      | none => scanAgentBlocks rest
    else scanAgentBlocks rest

/-- `get_message_summary`.  Only `json.JSONDecodeError` is caught by the
source (`Payload.parsed = none`); `AttributeError`/`TypeError` raised
while probing the decoded value propagate to the caller. -/
def get_message_summary (msg : Msg) : Except PyErr String :=
  let msg_type := msg.type
  if msg_type = some "user" then
    match msg.llm_data with
    | .strv raw parse =>
      if raw ≠ "" then
        match parse with
        | none => .ok "User: (message)"
        | some data => do
          let blocks ← contentBlocks data
          let r ← scanUserBlocks blocks
          match r with
          | some s => .ok s
          | none => .ok "User: (message)"
      else .ok "User: (message)"
    | .nullv => .ok "User: (message)"
  else if msg_type = some "agent" then
    match msg.llm_data with
    | .strv raw parse =>
      if raw ≠ "" then
        match parse with
        | none => .ok "Agent: (response)"
        | some data => do
          let blocks ← contentBlocks data
          let r ← scanAgentBlocks blocks
          match r with
          | some s => .ok s
          | none => .ok "Agent: (response)"
      else .ok "Agent: (response)"
    | .nullv => .ok "Agent: (response)"
  else if msg_type = some "tool" then
    .ok "Tool: (result)"
  else if msg_type = some "system" then
    .ok "System: (prompt)"
  else
    .ok ((match msg_type with | none => "None" | some t => t) ++ ": (message)")

/-! ## Branch engine (`branch_conversation`)

The two random sources (`generate_conversation_id`, per-message
`generate_message_id`) and the clock (`datetime.utcnow()`) are passed in
as parameters `new_id`, `msg_ids` (the i-th generated message id) and
`now`.  State is threaded explicitly: the function returns the updated
store, so an error leaves the store untouched by construction — this is
the transaction/rollback behaviour of the `with` block. -/

/-- Errors raised (`ValueError`) before any write. -/
inductive BranchErr where
  | notFound (conversation_id : String) : BranchErr
  | emptyRange (cutoff : Int) : BranchErr
deriving DecidableEq

/-- The copied row for one source message: fresh `message_id`, same
`sequence_id`, `type` and payloads.  `msg.get('created_at', now)` never
takes its default (the row dict always has the key), so `created_at` is
copied verbatim — including SQL NULL. -/
def copiedMsg (new_id : String) (new_msg_id : String) (m : Msg) : Msg :=
  { message_id := new_msg_id
    conversation_id := new_id
    sequence_id := m.sequence_id
    type := m.type
    llm_data := m.llm_data
    user_data := m.user_data
    usage_data := m.usage_data
    display_data := m.display_data
    created_at := m.created_at }

/-- The `for msg in source_messages` insert loop; `i` counts the
`generate_message_id()` calls already made. -/
def copyMsgs (new_id : String) (msg_ids : Nat → String) : Nat → List Msg → List Msg
  | _, [] => []
  | i, m :: rest => copiedMsg new_id (msg_ids i) m :: copyMsgs new_id msg_ids (i + 1) rest

/-- `branch_conversation(source_conversation_id, branch_after_sequence, new_slug)`. -/
def branch_conversation (db : DB) (source_conversation_id : String)
    (branch_after_sequence : Int) (new_slug : Option String)
    (new_id : String) (now : String) (msg_ids : Nat → String) :
    Except BranchErr (DB × String) :=
  match get_conversation db source_conversation_id with
  | none => .error (.notFound source_conversation_id)
  | some source =>
    let source_messages := get_messages db source_conversation_id (some branch_after_sequence)
    if source_messages.isEmpty then
      .error (.emptyRange branch_after_sequence)
    else
      -- `if not new_slug:` — `None` and `''` both trigger the derived slug;
      -- `source.get('slug') or 'conversation'` treats NULL and `''` alike.
      let slug :=
        match new_slug with
        | some s => if s = "" then (match source.slug with
            | some t => (if t = "" then "conversation" else t) ++ "-branch"
            | none => "conversation-branch") else s
        | none =>
          match source.slug with
          | some t => (if t = "" then "conversation" else t) ++ "-branch"
          | none => "conversation-branch"
      -- `source.get('cwd', '/home/exedev')` never takes its default
      -- (row dicts always carry the column); NULL is inserted verbatim.
      let newConv : Conv :=
        { conversation_id := new_id
          slug := some slug
          user_initiated := true
          created_at := now
          updated_at := now
          cwd := source.cwd
          archived := false }
      let newMsgs := copyMsgs new_id msg_ids 0 source_messages
      .ok ({ conversations := db.conversations ++ [newConv]
             messages := db.messages ++ newMsgs }, new_id)

/-! ## Token estimator (`estimate_tokens`) -/

/-- The result dict of `estimate_tokens`. -/
structure TokenEstimate where
  input_tokens : Int
  output_tokens : Int
  total_tokens : Int
  estimated : Bool
deriving DecidableEq

/-- `total += usage.get(k, 0)`: adding a decoded JSON value to a Python
int; bools count as 0/1, anything non-numeric raises `TypeError`. -/
def usageNum : JsonVal → Except PyErr Int
  | .num n => .ok n
  | .bool b => .ok (if b then 1 else 0)
  | _ => .error .typeError

/-- `usage.get(k, 0)` after a successful parse: raises `AttributeError`
when the parsed value is not a dict. -/
def usageField (v : JsonVal) (k : String) : Except PyErr JsonVal :=
  match v with
  | .obj kvs => .ok ((objGet kvs k).getD (.num 0))
  | _ => .error .attributeError

/-- The primary pass of `estimate_tokens`: sum `input_tokens` and
`output_tokens` over messages with truthy `usage_data`;
`json.JSONDecodeError` is caught (the message contributes nothing), but
errors while probing the decoded value propagate. -/
def usageSums : List Msg → Except PyErr (Int × Int)
  | [] => .ok (0, 0)
  | m :: rest => do
    let (i, o) ←
      match m.usage_data with
      | .nullv => .ok ((0 : Int), (0 : Int))
      | .strv raw parse =>
        if raw = "" then .ok (0, 0)
        else
          match parse with
          | none => .ok (0, 0)
          | some v => do
            let iv ← usageField v "input_tokens"
            let i ← usageNum iv
            let ov ← usageField v "output_tokens"
            let o ← usageNum ov
            .ok (i, o)
    let (i', o') ← usageSums rest
    .ok (i + i', o + o')

/-- The fallback pass: `len(llm_data) // 4` characters-per-token
heuristic, attributed to input for `user` messages and output for
`agent` messages.  `len` is only evaluated for those two types, and
raises `TypeError` on a NULL `llm_data` (`msg.get('llm_data', '')`
returns the stored `None`, not `''`). -/
def fallbackSums : List Msg → Except PyErr (Int × Int)
  | [] => .ok (0, 0)
  | m :: rest => do
    -- `len(llm_data) // 4` on a nonnegative length: floor = truncation.
    let i ← if m.type = some "user" then
        (m.llm_data.pyLen).map (fun l => ((l / 4 : Nat) : Int)) else .ok 0
    let o ← if m.type = some "agent" then
        (m.llm_data.pyLen).map (fun l => ((l / 4 : Nat) : Int)) else .ok 0
    let (i', o') ← fallbackSums rest
    .ok (i + i', o + o')

/-- `estimate_tokens(conversation_id)`.  Note that the `estimated` flag
is computed from the totals *after* the fallback pass has already added
its contribution. -/
def estimate_tokens (db : DB) (conversation_id : String) :
    Except PyErr TokenEstimate := do
  let messages := get_messages db conversation_id none
  let (ti, to_) ← usageSums messages
  let (total_input, total_output) ←
    if ti = 0 ∧ to_ = 0 then do
      let (fi, fo) ← fallbackSums messages
      .ok (ti + fi, to_ + fo)
    else .ok (ti, to_)
  .ok { input_tokens := total_input
        output_tokens := total_output
        total_tokens := total_input + total_output
        estimated := total_input = 0 ∧ total_output = 0 }

/-! ## Checkpoint registry (`checkpoint.py`)

The registry file is threaded explicitly: each operation takes the
current file state and returns the new one.  `RegFile.valid` models a
file of the shape this module itself writes,
`{"checkpoints": {key: record, ...}}`, as an association list in dict
insertion order with unique keys; `missing` / `invalid` are the two
states `_load_checkpoints` maps to the empty registry. -/

/-- The `slug` field of a stored checkpoint record: `missing` = the key
is absent from the JSON object (only possible in a hand-edited file),
`nullv` = JSON `null` (written by `save` when the conversation has no
slug), `strv` = a string. -/
inductive SlugVal where
  | missing : SlugVal
  | nullv : SlugVal
  | strv (s : String) : SlugVal
deriving DecidableEq

/-- A checkpoint record as serialized by `save_checkpoint`. -/
structure Checkpoint where
  conversation_id : String
  sequence_id : Int
  name : String
  summary : String
  slug : SlugVal
  created_at : String
deriving DecidableEq

/-- The checkpoint file on disk. -/
inductive RegFile where
  | missing : RegFile
  | invalid : RegFile
  | valid (checkpoints : List (String × Checkpoint)) : RegFile
deriving DecidableEq

/-- `_load_checkpoints`: `FileNotFoundError` and `JSONDecodeError` both
yield `{'checkpoints': {}}`. -/
def loadCheckpoints : RegFile → List (String × Checkpoint)
  | .missing => []
  | .invalid => []
  | .valid l => l

/-- Python dict lookup `d.get(key)`. -/
def dictGet (l : List (String × Checkpoint)) (k : String) : Option Checkpoint :=
  (l.find? (fun kv => kv.1 = k)).map Prod.snd

/-- Python dict update `d[key] = v`: replaces in place, else appends. -/
def dictSet (l : List (String × Checkpoint)) (k : String) (v : Checkpoint) :
    List (String × Checkpoint) :=
  match l with
  | [] => [(k, v)]
  | (k', v') :: rest =>
    if k' = k then (k', v) :: rest else (k', v') :: dictSet rest k v

/-- Python dict deletion `del d[key]` (first, i.e. only, occurrence). -/
def dictDel (l : List (String × Checkpoint)) (k : String) :
    List (String × Checkpoint) :=
  match l with
  | [] => []
  | (k', v') :: rest =>
    if k' = k then rest else (k', v') :: dictDel rest k

/-- Failures of `save_checkpoint`: the two `ValueError`s, plus an
uncaught Python error escaping from `get_message_summary`. -/
inductive SaveErr where
  | notFound (conversation_id : String) : SaveErr
  | noMessages (conversation_id : String) : SaveErr
  | pyErr (e : PyErr) : SaveErr
deriving DecidableEq

/-- `max(m['sequence_id'] for m in messages)` over a nonempty list. -/
def maxSeqOf (messages : List Msg) : Int :=
  (messages.map (fun m => m.sequence_id)).foldl max
    ((messages.map (fun m => m.sequence_id)).headD 0)

/-- `save_checkpoint(conversation_id, name, sequence_id)`; `now` stands
in for `datetime.utcnow().isoformat()`. -/
def save_checkpoint (db : DB) (reg : RegFile) (conversation_id name : String)
    (sequence_id : Option Int) (now : String) :
    Except SaveErr (RegFile × Checkpoint) := do
  let conv ←
    match get_conversation db conversation_id with
    | none => .error (.notFound conversation_id)
    | some c => .ok c
  -- `if sequence_id is None:` — an explicit `None` test, not truthiness.
  let seq ←
    match sequence_id with
    | none =>
      let messages := get_messages db conversation_id none
      if messages.isEmpty then .error (.noMessages conversation_id)
      else .ok (maxSeqOf messages)
    | some s => .ok s
  let messages := get_messages db conversation_id (some seq)
  -- `last_msg = messages[-1] if messages else None`
  let summary ←
    match messages.getLast? with
    | some last_msg => (get_message_summary last_msg).mapError .pyErr
    | none => .ok "(empty)"
  let checkpoint : Checkpoint :=
    { conversation_id := conversation_id
      sequence_id := seq
      name := name
      summary := summary
      slug := match conv.slug with | none => .nullv | some s => .strv s
      created_at := now }
  let data := loadCheckpoints reg
  let key := conversation_id ++ ":" ++ name
  .ok (.valid (dictSet data key checkpoint), checkpoint)

/-- `get_checkpoint(conversation_id, name)`. -/
def get_checkpoint (reg : RegFile) (conversation_id name : String) :
    Option Checkpoint :=
  dictGet (loadCheckpoints reg) (conversation_id ++ ":" ++ name)

/-- `list_checkpoints(conversation_id)`: values of the dict, optionally
filtered (`if conversation_id:` — truthiness, so `''` disables the
filter too), sorted by `created_at` descending (`list.sort` with
`reverse=True`; tie order among equal keys is irrelevant to the claims
proved below). -/
def list_checkpoints (reg : RegFile) (conversation_id : Option String) :
    List Checkpoint :=
  let checkpoints := (loadCheckpoints reg).map Prod.snd
  let checkpoints :=
    match conversation_id with
    | some c =>
      if c = "" then checkpoints
      else checkpoints.filter (fun cp => cp.conversation_id = c)
    | none => checkpoints
  List.insertionSort (fun a b => b.created_at ≤ a.created_at) checkpoints

/-- `delete_checkpoint(conversation_id, name)`: the file is rewritten
only when the key was present; otherwise it is left untouched. -/
def delete_checkpoint (reg : RegFile) (conversation_id name : String) :
    RegFile × Bool :=
  let data := loadCheckpoints reg
  let key := conversation_id ++ ":" ++ name
  if (dictGet data key).isSome then (.valid (dictDel data key), true)
  else (reg, false)

/-- Failures of `restore_checkpoint`. -/
inductive RestoreErr where
  | checkpointNotFound (conversation_id name : String) : RestoreErr
  | branch (e : BranchErr) : RestoreErr
deriving DecidableEq

/-- `f"{checkpoint.get('slug', 'conversation')}-from-{name}"`: the
`.get` default fires only when the key is *missing*; a stored JSON
`null` is returned as `None` and rendered by the f-string as the
string `"None"`. -/
def restoreSlug (slug : SlugVal) (name : String) : String :=
  (match slug with
   | .missing => "conversation"
   | .nullv => "None"
   | .strv s => s) ++ "-from-" ++ name

/-- `restore_checkpoint(conversation_id, name)`: look up the
checkpoint, derive the slug, delegate to `branch_conversation`. -/
def restore_checkpoint (db : DB) (reg : RegFile) (conversation_id name : String)
    (new_id : String) (now : String) (msg_ids : Nat → String) :
    Except RestoreErr (DB × String) :=
  match get_checkpoint reg conversation_id name with
  | none => .error (.checkpointNotFound conversation_id name)
  | some checkpoint =>
    (branch_conversation db checkpoint.conversation_id checkpoint.sequence_id
      (some (restoreSlug checkpoint.slug name)) new_id now msg_ids).mapError .branch

/-! ## General lemmas -/

theorem msgSelected_none_iff {cid : String} {m : Msg} :
    msgSelected cid none m = true ↔ m.conversation_id = cid := by
  simp [msgSelected]

theorem msgSelected_some_iff {cid : String} {s : Int} {m : Msg} :
    msgSelected cid (some s) m = true ↔
      (m.conversation_id = cid ∧ m.sequence_id ≤ s) := by
  simp [msgSelected]

theorem mem_get_messages {db : DB} {cid : String} {maxs : Option Int} {m : Msg} :
    m ∈ get_messages db cid maxs ↔ m ∈ db.messages ∧ msgSelected cid maxs m = true := by
  unfold get_messages
  rw [List.mem_insertionSort, List.mem_filter]

theorem mem_copyMsgs {new_id : String} {msg_ids : Nat → String} :
    ∀ (i : Nat) (L : List Msg) (m' : Msg),
      m' ∈ copyMsgs new_id msg_ids i L ↔
        ∃ j, ∃ h : j < L.length, m' = copiedMsg new_id (msg_ids (i + j)) (L.get ⟨j, h⟩)
  | i, [], m' => by simp [copyMsgs]
  | i, m :: rest, m' => by
    simp only [copyMsgs, List.mem_cons]
    constructor
    · rintro (h | h)
      · refine ⟨0, Nat.succ_pos _, ?_⟩
        rw [Nat.add_zero]
        exact h
      · obtain ⟨j, hj, he⟩ := (mem_copyMsgs (i + 1) rest m').1 h
        refine ⟨j + 1, Nat.succ_lt_succ hj, ?_⟩
        rw [show i + (j + 1) = (i + 1) + j from by omega]
        exact he
    · rintro ⟨j, hj, he⟩
      match j, hj, he with
      | 0, hj, he =>
        rw [Nat.add_zero] at he
        exact Or.inl he
      | j' + 1, hj, he =>
        refine Or.inr ((mem_copyMsgs (i + 1) rest m').2 ⟨j', Nat.lt_of_succ_lt_succ hj, ?_⟩)
        rw [show (i + 1) + j' = i + (j' + 1) from by omega]
        exact he

/-- Inversion of a successful `branch_conversation`: the returned id is
the minted one and the new store appends exactly the copied prefix. -/
theorem branch_ok_inv {db : DB} {src : String} {S : Int} {slugOpt : Option String}
    {new_id now : String} {msg_ids : Nat → String} {db' : DB} {rid : String}
    (hok : branch_conversation db src S slugOpt new_id now msg_ids = .ok (db', rid)) :
    rid = new_id ∧
      db'.messages = db.messages ++ copyMsgs new_id msg_ids 0 (get_messages db src (some S)) := by
  unfold branch_conversation at hok
  cases hget : get_conversation db src with
  | none => simp [hget] at hok
  | some source =>
    simp only [hget] at hok
    cases hL : get_messages db src (some S) with
    | nil => simp [hL] at hok
    | cons a L' =>
      rw [hL] at hok
      simp only [List.isEmpty_cons, Bool.false_eq_true, if_false,
        Except.ok.injEq, Prod.mk.injEq] at hok
      refine ⟨hok.2.symm, ?_⟩
      rw [← hok.1]

/-! ## Concrete fixtures used by the claim theorems -/

/-- A content block `{"Type": 2, "Text": t}`. -/
def textBlock (t : String) : JsonVal := .obj [("Type", .num 2), ("Text", .str t)]

/-- A content block `{"Type": 5, "ToolName": n}`. -/
def toolBlock (n : String) : JsonVal := .obj [("Type", .num 5), ("ToolName", .str n)]

/-- An `llm_data` string parsing to `{"Content": [...]}`. -/
def contentPayload (bs : List JsonVal) : Payload :=
  .strv "raw" (some (.obj [("Content", .arr bs)]))

/-- A sample conversation row. -/
def convA : Conv where
  conversation_id := "cA"
  slug := some "alpha"
  user_initiated := false
  created_at := "T0"
  updated_at := "T0"
  cwd := some "/w"
  archived := false

/-- C1 fixture: one 40-character user message, no usage data anywhere. -/
def msgC1 : Msg where
  message_id := "m1"
  conversation_id := "cA"
  sequence_id := 1
  type := some "user"
  llm_data := .strv "xxxxxxxxxxxxxxxxxxxxxxxxxxxxxxxxxxxxxxxx" none
  user_data := .nullv
  usage_data := .nullv
  display_data := .nullv
  created_at := some "T1"

def dbC1 : DB where
  conversations := [convA]
  messages := [msgC1]

/-- C1 fixture: two messages whose parseable `usage_data` sums to nonzero. -/
def msgC1uIn : Msg where
  message_id := "m1"
  conversation_id := "cA"
  sequence_id := 1
  type := some "user"
  llm_data := .nullv
  user_data := .nullv
  usage_data := .strv "u1" (some (.obj [("input_tokens", .num 10)]))
  display_data := .nullv
  created_at := some "T1"

def msgC1uOut : Msg where
  message_id := "m2"
  conversation_id := "cA"
  sequence_id := 2
  type := some "agent"
  llm_data := .nullv
  user_data := .nullv
  usage_data := .strv "u2" (some (.obj [("output_tokens", .num 20)]))
  display_data := .nullv
  created_at := some "T2"

def dbC1u : DB where
  conversations := [convA]
  messages := [msgC1uIn, msgC1uOut]

/-! ## Claims -/

/-- C1: the claim says `estimate_tokens` sets `estimated = true` exactly
when the character-count fallback was used, and in particular that a
conversation with no usage data and one 40-character user message yields
`{input: 10, output: 0, estimated: true}`.  The code computes the flag
*after* the fallback pass has already added its contribution
(`'estimated': total_input == 0 and total_output == 0` on the mutated
totals), so the fallback path that produced the claimed `input = 10`
yields `estimated = false`.  The nonzero-usage example does yield
`estimated = false` as claimed. -/
theorem c1_estimated_flag_after_fallback :
    estimate_tokens dbC1 "cA" =
      .ok { input_tokens := 10, output_tokens := 0, total_tokens := 10, estimated := false } ∧
    estimate_tokens dbC1u "cA" =
      .ok { input_tokens := 10, output_tokens := 20, total_tokens := 30, estimated := false } :=
  ⟨rfl, rfl⟩

/-- C4 fixture: a user message whose `llm_data` is the valid JSON text
`"123"` — `json.loads` succeeds with the integer `123`. -/
def msgC4 : Msg where
  message_id := "m1"
  conversation_id := "cA"
  sequence_id := 1
  type := some "user"
  llm_data := .strv "123" (some (.num 123))
  user_data := .nullv
  usage_data := .nullv
  display_data := .nullv
  created_at := none

/-- C4: the claim says `get_message_summary` never raises and degrades
malformed payloads to a generic label.  The code catches only
`json.JSONDecodeError`; on a user message whose `llm_data` parses to a
non-object (here the integer `123`), `data.get('Content', [])` raises
an uncaught `AttributeError` instead of returning `"User: (message)"`. -/
theorem c4_summary_raises_on_non_object_json :
    get_message_summary msgC4 = .error .attributeError := rfl

/-- Membership in the branched conversation is exactly membership in
the copied prefix, given that the minted conversation id is fresh. -/
theorem branch_new_messages_iff
    {db : DB} {src : String} {S : Int} {slugOpt : Option String}
    {new_id now : String} {msg_ids : Nat → String} {db' : DB} {rid : String}
    (hok : branch_conversation db src S slugOpt new_id now msg_ids = .ok (db', rid))
    (hfresh_conv : ∀ m ∈ db.messages, m.conversation_id ≠ new_id) :
    ∀ m' : Msg, m' ∈ get_messages db' rid none ↔
      m' ∈ copyMsgs new_id msg_ids 0 (get_messages db src (some S)) := by
  obtain ⟨hrid, hmsgs⟩ := branch_ok_inv hok
  subst hrid
  intro m'
  rw [mem_get_messages, hmsgs, List.mem_append]
  constructor
  · rintro ⟨h | h, hsel⟩
    · exact absurd (msgSelected_none_iff.1 hsel) (hfresh_conv m' h)
    · exact h
  · intro h
    refine ⟨Or.inr h, msgSelected_none_iff.2 ?_⟩
    obtain ⟨j, hj, he⟩ := (mem_copyMsgs 0 _ m').1 h
    rw [he]; rfl

/-- Every element of the copied prefix is the copy of a source message
of the selected range. -/
theorem copyMsgs_char {db : DB} {src : String} {S : Int}
    {new_id : String} {msg_ids : Nat → String} :
    ∀ m' ∈ copyMsgs new_id msg_ids 0 (get_messages db src (some S)),
      ∃ m0 ∈ db.messages, m0.conversation_id = src ∧ m0.sequence_id ≤ S ∧
        ∃ i : Nat, m' = copiedMsg new_id (msg_ids i) m0 := by
  intro m' h
  obtain ⟨j, hj, he⟩ := (mem_copyMsgs 0 _ m').1 h
  have hm0 : (get_messages db src (some S)).get ⟨j, hj⟩ ∈ get_messages db src (some S) :=
    List.get_mem _ j hj
  obtain ⟨hin, hsel⟩ := mem_get_messages.1 hm0
  obtain ⟨hc, hs⟩ := msgSelected_some_iff.1 hsel
  exact ⟨_, hin, hc, hs, 0 + j, he⟩

/-- C2: for every conversation and cutoff with at least one message in
range (here: a successful run, which the code guarantees exactly then),
`branch_conversation` produces a conversation whose message set carries
exactly the sequence_ids `{m.sequence_id | m ∈ db.messages, m in src, m.sequence_id ≤ S}`,
with identical `type` and payload fields per matching sequence number,
and message_ids distinct from all of the source store's.  The
hypotheses encode the randomness assumptions the code relies on: the
minted conversation id and the minted message ids (`uuid4`) are fresh,
and sequence_ids are unique within the source conversation (the store's
documented uniqueness expectation). -/
theorem c2_branch_copies_prefix
    (db : DB) (src : String) (S : Int) (slugOpt : Option String)
    (new_id now : String) (msg_ids : Nat → String) (db' : DB) (rid : String)
    (hok : branch_conversation db src S slugOpt new_id now msg_ids = .ok (db', rid))
    (hfresh_conv : ∀ m ∈ db.messages, m.conversation_id ≠ new_id)
    (hfresh_ids : ∀ i : Nat, ∀ m ∈ db.messages, msg_ids i ≠ m.message_id)
    (huniq : ∀ m ∈ db.messages, ∀ m' ∈ db.messages, m.conversation_id = src →
      m'.conversation_id = src → m.sequence_id = m'.sequence_id →
      m.type = m'.type ∧ m.llm_data = m'.llm_data ∧ m.user_data = m'.user_data ∧
        m.usage_data = m'.usage_data ∧ m.display_data = m'.display_data) :
    (∀ s : Int,
      (∃ m' ∈ get_messages db' rid none, m'.sequence_id = s) ↔
        (∃ m ∈ db.messages, m.conversation_id = src ∧ m.sequence_id = s ∧ s ≤ S)) ∧
    (∀ m' ∈ get_messages db' rid none, ∀ m ∈ db.messages, m.conversation_id = src →
      m'.sequence_id = m.sequence_id →
      m'.type = m.type ∧ m'.llm_data = m.llm_data ∧ m'.user_data = m.user_data ∧
        m'.usage_data = m.usage_data ∧ m'.display_data = m.display_data) ∧
    (∀ m' ∈ get_messages db' rid none, ∀ m ∈ db.messages, m'.message_id ≠ m.message_id) := by
  have hmem := branch_new_messages_iff hok hfresh_conv
  have hchar := @copyMsgs_char db src S new_id msg_ids
  refine ⟨?_, ?_, ?_⟩
  · intro s
    constructor
    · rintro ⟨m', hm', hseq⟩
      obtain ⟨m0, hin, hc, hs, i, he⟩ := hchar m' ((hmem m').1 hm')
      rw [he] at hseq
      refine ⟨m0, hin, hc, hseq, ?_⟩
      rw [← hseq]; exact hs
    · rintro ⟨m, hin, hc, hseq, hle⟩
      have hmL : m ∈ get_messages db src (some S) :=
        mem_get_messages.2 ⟨hin, msgSelected_some_iff.2 ⟨hc, by rw [hseq]; exact hle⟩⟩
      obtain ⟨⟨j, hj⟩, hget⟩ := List.mem_iff_get.1 hmL
      refine ⟨copiedMsg new_id (msg_ids (0 + j)) ((get_messages db src (some S)).get ⟨j, hj⟩),
        (hmem _).2 ((mem_copyMsgs 0 _ _).2 ⟨j, hj, rfl⟩), ?_⟩
      show ((get_messages db src (some S)).get ⟨j, hj⟩).sequence_id = s
      rw [hget]; exact hseq
  · rintro m' hm' m hin hc hseq
    obtain ⟨m0, hin0, hc0, _, i, he⟩ := hchar m' ((hmem m').1 hm')
    rw [he] at hseq
    obtain ⟨ht, hl, hu, hus, hd⟩ := huniq m0 hin0 m hin hc0 hc hseq
    rw [he]
    exact ⟨ht, hl, hu, hus, hd⟩
  · rintro m' hm' m hin
    obtain ⟨m0, hin0, _, _, i, he⟩ := hchar m' ((hmem m').1 hm')
    rw [he]
    exact hfresh_ids i m hin

/-- C2 witness fixture: two source messages, cutoff between them. -/
def msgC2a : Msg where
  message_id := "m1"
  conversation_id := "cA"
  sequence_id := 1
  type := some "user"
  llm_data := contentPayload [textBlock "hello"]
  user_data := .nullv
  usage_data := .strv "u1" (some (.obj [("input_tokens", .num 3)]))
  display_data := .nullv
  created_at := some "T1"

def msgC2b : Msg where
  message_id := "m2"
  conversation_id := "cA"
  sequence_id := 2
  type := some "agent"
  llm_data := .nullv
  user_data := .nullv
  usage_data := .nullv
  display_data := .nullv
  created_at := some "T2"

def dbC2 : DB where
  conversations := [convA]
  messages := [msgC2a, msgC2b]

/-- The message-id supply for the witness run. -/
def idsC2 : Nat → String := fun _ => "fresh-id"

/-- The conversation row minted by the witness run. -/
def convC2' : Conv where
  conversation_id := "cNEW"
  slug := some "alpha-branch"
  user_initiated := true
  created_at := "NOW"
  updated_at := "NOW"
  cwd := some "/w"
  archived := false

/-- The copied message of the witness run. -/
def msgC2a' : Msg where
  message_id := "fresh-id"
  conversation_id := "cNEW"
  sequence_id := 1
  type := some "user"
  llm_data := contentPayload [textBlock "hello"]
  user_data := .nullv
  usage_data := .strv "u1" (some (.obj [("input_tokens", .num 3)]))
  display_data := .nullv
  created_at := some "T1"

/-- The store produced by the witness run of `branch_conversation`. -/
def dbC2' : DB where
  conversations := [convA, convC2']
  messages := [msgC2a, msgC2b, msgC2a']

/-- C2 witness: the theorem applied to a concrete store (two messages,
cutoff 1), with every hypothesis discharged by evaluation. -/
theorem c2_branch_copies_prefix_witness :
    (∀ s : Int,
      (∃ m' ∈ get_messages dbC2' "cNEW" none, m'.sequence_id = s) ↔
        (∃ m ∈ dbC2.messages, m.conversation_id = "cA" ∧ m.sequence_id = s ∧ s ≤ 1)) ∧
    (∀ m' ∈ get_messages dbC2' "cNEW" none, ∀ m ∈ dbC2.messages, m.conversation_id = "cA" →
      m'.sequence_id = m.sequence_id →
      m'.type = m.type ∧ m'.llm_data = m.llm_data ∧ m'.user_data = m.user_data ∧
        m'.usage_data = m.usage_data ∧ m'.display_data = m.display_data) ∧
    (∀ m' ∈ get_messages dbC2' "cNEW" none, ∀ m ∈ dbC2.messages, m'.message_id ≠ m.message_id) :=
  c2_branch_copies_prefix dbC2 "cA" 1 none "cNEW" "NOW" idsC2 dbC2' "cNEW" rfl
    (by decide)
    (by intro i
        show ∀ m ∈ dbC2.messages, "fresh-id" ≠ m.message_id
        decide)
    (by intro m hm m' hm' _ _ h3
        fin_cases hm <;> fin_cases hm' <;>
          first
            | exact ⟨rfl, rfl, rfl, rfl, rfl⟩
            | exact absurd h3 (by decide))

/-- C5: `branch_conversation` validates before mutating.  If the source
conversation does not exist it fails with NotFound; if the source
exists but no message has `sequence_id ≤ S`, it fails with EmptyRange.
In this explicit-state embedding an `.error` result is returned before
any store value is produced, so no conversation row and no message rows
are created — exactly the code's behaviour, where both `raise`s occur
before the insert transaction is opened. -/
theorem c5_branch_fail_fast
    (db : DB) (src : String) (S : Int) (slugOpt : Option String)
    (new_id now : String) (msg_ids : Nat → String) :
    (get_conversation db src = none →
      branch_conversation db src S slugOpt new_id now msg_ids = .error (.notFound src)) ∧
    (∀ source, get_conversation db src = some source →
      (∀ m ∈ db.messages, m.conversation_id = src → S < m.sequence_id) →
      branch_conversation db src S slugOpt new_id now msg_ids = .error (.emptyRange S)) := by
  constructor
  · intro h
    simp [branch_conversation, h]
  · intro source hsome hnone
    have hnil : get_messages db src (some S) = [] := by
      unfold get_messages
      have hfil : db.messages.filter (msgSelected src (some S)) = [] := by
        rw [List.filter_eq_nil_iff]
        intro m hm hsel
        obtain ⟨hc, hs⟩ := msgSelected_some_iff.1 hsel
        exact absurd hs (not_le.2 (hnone m hm hc))
      rw [hfil]
      rfl
    simp [branch_conversation, hsome, hnil]

/-- C5 fixture: an empty store (for NotFound). -/
def dbNone : DB where
  conversations := []
  messages := []

/-- C5 witness: NotFound on a store without the source conversation,
and EmptyRange on `dbC2` with cutoff 0 (both its messages have
sequence_id ≥ 1). -/
theorem c5_branch_fail_fast_witness :
    branch_conversation dbNone "cZ" 3 none "cN" "NOW" idsC2 = .error (.notFound "cZ") ∧
    branch_conversation dbC2 "cA" 0 none "cN" "NOW" idsC2 = .error (.emptyRange 0) :=
  ⟨(c5_branch_fail_fast dbNone "cZ" 3 none "cN" "NOW" idsC2).1 rfl,
   (c5_branch_fail_fast dbC2 "cA" 0 none "cN" "NOW" idsC2).2 convA rfl (by decide)⟩

/-- C8 counterexample fixture: a source message whose `created_at` is
SQL NULL. -/
def msgC8 : Msg where
  message_id := "m1"
  conversation_id := "cA"
  sequence_id := 1
  type := some "tool"
  llm_data := .nullv
  user_data := .nullv
  usage_data := .nullv
  display_data := .nullv
  created_at := none

def dbC8 : DB where
  conversations := [convA]
  messages := [msgC8]

/-- C8 counterexample: branching a conversation whose only message has
`created_at = NULL` copies the NULL verbatim — the new row's
`created_at` is `none`, not the branch's "now" timestamp `"NOW8"`, so
the claim's fallback-on-null behaviour does not happen:
`msg.get('created_at', now)` returns the stored `None` because the row
dict always carries the key. -/
theorem c8_null_created_at_not_replaced :
    (branch_conversation dbC8 "cA" 5 none "cN8" "NOW8" idsC2).map
        (fun p => (get_messages p.1 "cN8" none).map (fun m => m.created_at)) =
      .ok [none] ∧
    ([(none : Option String)] ≠ [some "NOW8"]) :=
  ⟨rfl, by decide⟩

/-- C8 amended: for every message copied by `branch_conversation`, the
new row's `created_at` equals the source message's `created_at`
verbatim — including when the source value is NULL; the `now` fallback
of `msg.get('created_at', now)` is unreachable because rows fetched by
`SELECT *` always contain the `created_at` key. -/
theorem c8_created_at_copied_verbatim
    (db : DB) (src : String) (S : Int) (slugOpt : Option String)
    (new_id now : String) (msg_ids : Nat → String) (db' : DB) (rid : String)
    (hok : branch_conversation db src S slugOpt new_id now msg_ids = .ok (db', rid))
    (hfresh_conv : ∀ m ∈ db.messages, m.conversation_id ≠ new_id) :
    ∀ m' ∈ get_messages db' rid none, ∃ m ∈ db.messages,
      m.conversation_id = src ∧ m.sequence_id ≤ S ∧ m'.created_at = m.created_at := by
  intro m' hm'
  obtain ⟨m0, hin, hc, hs, i, he⟩ :=
    copyMsgs_char m' ((branch_new_messages_iff hok hfresh_conv m').1 hm')
  refine ⟨m0, hin, hc, hs, ?_⟩
  rw [he]
  rfl

/-- The store produced by the C8 witness run of `branch_conversation`. -/
def dbC8' : DB :=
  DB.mk [convA, Conv.mk "cN8" (some "alpha-branch") true "NOW8" "NOW8" (some "/w") false]
    [msgC8, copiedMsg "cN8" "fresh-id" msgC8]

/-- C8 witness: the amended theorem applied to the NULL-`created_at`
fixture, instantiated at the one copied message of the branched
conversation. -/
theorem c8_created_at_copied_verbatim_witness :
    ∃ m ∈ dbC8.messages, m.conversation_id = "cA" ∧ m.sequence_id ≤ 5 ∧
      (copiedMsg "cN8" "fresh-id" msgC8).created_at = m.created_at :=
  c8_created_at_copied_verbatim dbC8 "cA" 5 none "cN8" "NOW8" idsC2 dbC8' "cN8" rfl (by decide)
    (copiedMsg "cN8" "fresh-id" msgC8)
    (show copiedMsg "cN8" "fresh-id" msgC8 ∈ [copiedMsg "cN8" "fresh-id" msgC8] from
      List.mem_cons_self _ _)

/-- Reduction of the `Except` monad's bind on a success value. -/
theorem ok_bind {ε α β : Type} (a : α) (f : α → Except ε β) :
    (Except.ok a : Except ε α) >>= f = f a := rfl

/-- `c.get(k)` for a block already known to be a dict (`none` both when
the key is absent and when `c` is not a dict; the latter never occurs
under the hypotheses below). -/
def blockField (c : JsonVal) (k : String) : Option JsonVal :=
  match c with
  | .obj kvs => objGet kvs k
  | _ => none

/-- The text pattern of the agent scan: `Type == 2` with truthy `Text`. -/
def blockTextMatch (c : JsonVal) : Bool :=
  optEqNum (blockField c "Type") 2 && optTruthy (blockField c "Text")

/-- The tool pattern of the agent scan: `Type == 5` with truthy `ToolName`. -/
def blockToolMatch (c : JsonVal) : Bool :=
  optEqNum (blockField c "Type") 5 && optTruthy (blockField c "ToolName")

/-- Spec-side rendering for the amended C3: the *first* block matching
either pattern decides the summary (text checked before tool within
each block), falling back to `"Agent: (response)"`. -/
def renderAgentFirst : List JsonVal → String
  | [] => "Agent: (response)"
  | c :: rest =>
    if blockTextMatch c then
      match blockField c "Text" with
      | some (.str t) => "Agent: " ++ t.take 100 ++ (if t.length > 100 then "..." else "")
      | _ => "Agent: (response)"
    else if blockToolMatch c then
      match blockField c "ToolName" with
      | some tv => "Agent: [using " ++ pyStr tv ++ "]"
      | none => "Agent: (response)"
    else renderAgentFirst rest

/-- A value equal to `2` under Python `==` is not equal to `5`. -/
theorem type2_not_type5 {bkvs : List (String × JsonVal)}
    (h2 : optEqNum (objGet bkvs "Type") 2 = true) :
    optEqNum (objGet bkvs "Type") 5 = false := by
  cases hty : objGet bkvs "Type" with
  | none => simp [optEqNum]
  | some tv =>
    rw [hty] at h2
    cases tv <;> simp_all [optEqNum, pyEqNum]

/-- The agent loop realizes the first-match rendering, provided every
block is a dict and every text-matched block carries a string `Text`. -/
theorem scanAgentBlocks_renders :
    ∀ (blocks : List JsonVal),
      (∀ c ∈ blocks, ∃ bkvs, c = JsonVal.obj bkvs) →
      (∀ c ∈ blocks, blockTextMatch c = true →
        ∃ t : String, blockField c "Text" = some (.str t)) →
      scanAgentBlocks blocks = .ok (some (renderAgentFirst blocks)) ∨
        (scanAgentBlocks blocks = .ok none ∧ renderAgentFirst blocks = "Agent: (response)")
  | [], _, _ => Or.inr ⟨rfl, rfl⟩
  | c :: rest, hb, ht => by
    obtain ⟨bkvs, rfl⟩ := hb c (List.mem_cons_self c rest)
    have ih := scanAgentBlocks_renders rest
      (fun c hc => hb c (List.mem_cons_of_mem _ hc))
      (fun c hc => ht c (List.mem_cons_of_mem _ hc))
    cases h2 : optEqNum (objGet bkvs "Type") 2 with
    | true =>
      cases htx : objGet bkvs "Text" with
      | some v =>
        cases htruthy : pyTruthy v with
        | true =>
          have hmatch : blockTextMatch (.obj bkvs) = true := by
            simp [blockTextMatch, blockField, h2, htx, optTruthy, htruthy]
          obtain ⟨t, htty⟩ := ht _ (List.mem_cons_self _ _) hmatch
          have hvt : v = .str t := by
            simp only [blockField, htx, Option.some.injEq] at htty
            exact htty
          subst hvt
          left
          simp only [renderAgentFirst, hmatch, eq_self_iff_true, if_true, blockField, htx]
          simp only [scanAgentBlocks, blockGet, ok_bind, h2, htx, htruthy]
          rfl
        | false =>
          have hmatch : blockTextMatch (.obj bkvs) = false := by
            simp [blockTextMatch, blockField, htx, optTruthy, htruthy]
          have htool : blockToolMatch (.obj bkvs) = false := by
            simp [blockToolMatch, blockField, type2_not_type5 h2]
          simp only [scanAgentBlocks, blockGet, ok_bind, h2, htx, htruthy,
            renderAgentFirst, hmatch, htool, Bool.false_eq_true, if_false,
            eq_self_iff_true, if_true]
          exact ih
      | none =>
        have hmatch : blockTextMatch (.obj bkvs) = false := by
          simp [blockTextMatch, blockField, htx, optTruthy]
        have htool : blockToolMatch (.obj bkvs) = false := by
          simp [blockToolMatch, blockField, type2_not_type5 h2]
        simp only [scanAgentBlocks, blockGet, ok_bind, h2, htx,
          renderAgentFirst, hmatch, htool, Bool.false_eq_true, if_false,
          eq_self_iff_true, if_true]
        exact ih
    | false =>
      have hmatch : blockTextMatch (.obj bkvs) = false := by
        simp [blockTextMatch, blockField, h2]
      cases h5 : optEqNum (objGet bkvs "Type") 5 with
      | true =>
        cases htool : objGet bkvs "ToolName" with
        | some tv =>
          cases htruthy : pyTruthy tv with
          | true =>
            have hmatch5 : blockToolMatch (.obj bkvs) = true := by
              simp [blockToolMatch, blockField, h5, htool, optTruthy, htruthy]
            left
            simp only [renderAgentFirst, hmatch, hmatch5, blockField, htool,
              Bool.false_eq_true, if_false, eq_self_iff_true, if_true]
            simp only [scanAgentBlocks, blockGet, ok_bind, h2, h5, htool, htruthy,
              Bool.false_eq_true, if_false]
            rfl
          | false =>
            have hmatch5 : blockToolMatch (.obj bkvs) = false := by
              simp [blockToolMatch, blockField, htool, optTruthy, htruthy]
            simp only [scanAgentBlocks, blockGet, ok_bind, h2, h5, htool, htruthy,
              renderAgentFirst, hmatch, hmatch5, Bool.false_eq_true, if_false,
              eq_self_iff_true, if_true]
            exact ih
        | none =>
          have hmatch5 : blockToolMatch (.obj bkvs) = false := by
            simp [blockToolMatch, blockField, htool, optTruthy]
          simp only [scanAgentBlocks, blockGet, ok_bind, h2, h5, htool,
            renderAgentFirst, hmatch, hmatch5, Bool.false_eq_true, if_false,
            eq_self_iff_true, if_true]
          exact ih
      | false =>
        have hmatch5 : blockToolMatch (.obj bkvs) = false := by
          simp [blockToolMatch, blockField, h5]
        simp only [scanAgentBlocks, blockGet, ok_bind, h2, h5,
          renderAgentFirst, hmatch, hmatch5, Bool.false_eq_true, if_false,
          eq_self_iff_true, if_true]
        exact ih

/-- C3 counterexample fixture: a tool-use block *before* a non-empty
text block. -/
def blocksC3 : List JsonVal := [toolBlock "bash", textBlock "hi"]

def msgC3 : Msg where
  message_id := "m1"
  conversation_id := "cA"
  sequence_id := 1
  type := some "agent"
  llm_data := contentPayload blocksC3
  user_data := .nullv
  usage_data := .nullv
  display_data := .nullv
  created_at := none

/-- C3 counterexample: the claim says a text block takes priority over a
tool-use block regardless of their relative order.  On an agent message
whose content is `[{Type:5, ToolName:"bash"}, {Type:2, Text:"hi"}]` the
single-pass loop returns the tool summary at the first block, not the
text summary `"Agent: hi"`. -/
theorem c3_tool_before_text_counterexample :
    get_message_summary msgC3 = .ok "Agent: [using bash]" ∧
    "Agent: [using bash]" ≠ "Agent: hi" :=
  ⟨rfl, by decide⟩

/-- C3 amended: the agent scan is a single pass over the content-block
list; within one block the text pattern is checked before the tool-use
pattern, so the text summary wins only when a text-matched block occurs
no later than every tool-matched block — in general the first block
matching either pattern decides the summary (`renderAgentFirst`).
Hypotheses: the payload parses to an object whose `Content` is a list
of objects, and text-matched blocks carry string `Text` (otherwise the
scan raises, cf. C4). -/
theorem c3_agent_first_match
    (m : Msg) (raw : String) (kvs : List (String × JsonVal)) (blocks : List JsonVal)
    (hty : m.type = some "agent")
    (hdata : m.llm_data = .strv raw (some (.obj kvs)))
    (hraw : raw ≠ "")
    (hcontent : objGet kvs "Content" = some (.arr blocks))
    (hblocks : ∀ c ∈ blocks, ∃ bkvs, c = JsonVal.obj bkvs)
    (htext : ∀ c ∈ blocks, blockTextMatch c = true →
      ∃ t : String, blockField c "Text" = some (.str t)) :
    get_message_summary m = .ok (renderAgentFirst blocks) := by
  have hne : m.type ≠ some "user" := by rw [hty]; decide
  simp only [get_message_summary, hdata, if_neg hne, if_pos hty, if_pos hraw,
    contentBlocks, hcontent, pyIter, ok_bind]
  rcases scanAgentBlocks_renders blocks hblocks htext with h | ⟨h1, h2⟩
  · rw [h, ok_bind]
  · rw [h1, h2, ok_bind]

/-- C3 witness: the amended theorem applied to the tool-before-text
fixture; the first matching block is the tool-use one. -/
theorem c3_agent_first_match_witness :
    get_message_summary msgC3 = .ok (renderAgentFirst blocksC3) :=
  c3_agent_first_match msgC3 "raw" [("Content", .arr blocksC3)] blocksC3
    rfl rfl (by decide) rfl
    (by intro c hc
        fin_cases hc
        · exact ⟨_, rfl⟩
        · exact ⟨_, rfl⟩)
    (by intro c hc
        fin_cases hc
        · intro h
          exact absurd h (by decide)
        · intro _
          exact ⟨"hi", rfl⟩)

/-- Reduction of the `Except` monad's bind on an error value. -/
theorem error_bind {ε α β : Type} (e : ε) (f : α → Except ε β) :
    (Except.error e : Except ε α) >>= f = .error e := rfl

/-- If every message of the conversation sits above the cutoff, the
bounded query returns the empty list. -/
theorem get_messages_eq_nil {db : DB} {cid : String} {S : Int}
    (h : ∀ m ∈ db.messages, m.conversation_id = cid → S < m.sequence_id) :
    get_messages db cid (some S) = [] := by
  unfold get_messages
  have hfil : db.messages.filter (msgSelected cid (some S)) = [] := by
    rw [List.filter_eq_nil_iff]
    intro m hm hsel
    obtain ⟨hc, hs⟩ := msgSelected_some_iff.1 hsel
    exact absurd hs (not_le.2 (h m hm hc))
  rw [hfil]
  rfl

/-- Inversion of a successful `save_checkpoint`: the stored record is
keyed under `cid:name`, and its `sequence_id` is the conversation's
maximum when the sequence argument was omitted, or the explicit value
verbatim. -/
theorem save_ok_inv {db : DB} {reg : RegFile} {cid name : String}
    {seqOpt : Option Int} {now : String} {reg' : RegFile} {cp : Checkpoint}
    (hok : save_checkpoint db reg cid name seqOpt now = .ok (reg', cp)) :
    cp.conversation_id = cid ∧ cp.name = name ∧
    reg' = .valid (dictSet (loadCheckpoints reg) (cid ++ ":" ++ name) cp) ∧
    (seqOpt = none →
      (get_messages db cid none ≠ [] ∧
        cp.sequence_id = maxSeqOf (get_messages db cid none))) ∧
    (∀ s, seqOpt = some s → cp.sequence_id = s) := by
  unfold save_checkpoint at hok
  cases hconv : get_conversation db cid with
  | none => simp [hconv, error_bind] at hok
  | some conv =>
    simp only [hconv, ok_bind] at hok
    cases seqOpt with
    | none =>
      cases hmsgs : get_messages db cid none with
      | nil => simp [hmsgs, error_bind] at hok
      | cons m0 rest =>
        simp only [hmsgs, List.isEmpty_cons, Bool.false_eq_true, if_false, ok_bind] at hok
        cases hlast : (get_messages db cid (some (maxSeqOf (m0 :: rest)))).getLast? with
        | none =>
          simp only [hlast, ok_bind, Except.ok.injEq, Prod.mk.injEq] at hok
          obtain ⟨hreg, hcp⟩ := hok
          subst hcp
          refine ⟨rfl, rfl, ?_, ?_, ?_⟩
          · rw [← hreg]
          · intro _
            exact ⟨List.cons_ne_nil _ _, rfl⟩
          · intro s hs
            cases hs
        | some last_msg =>
          cases hsum : get_message_summary last_msg with
          | error e => simp [hlast, hsum, Except.mapError, error_bind] at hok
          | ok s =>
            simp only [hlast, hsum, Except.mapError, ok_bind,
              Except.ok.injEq, Prod.mk.injEq] at hok
            obtain ⟨hreg, hcp⟩ := hok
            subst hcp
            refine ⟨rfl, rfl, ?_, ?_, ?_⟩
            · rw [← hreg]
            · intro _
              exact ⟨List.cons_ne_nil _ _, rfl⟩
            · intro s' hs'
              cases hs'
    | some s =>
      simp only [ok_bind] at hok
      cases hlast : (get_messages db cid (some s)).getLast? with
      | none =>
        simp only [hlast, ok_bind, Except.ok.injEq, Prod.mk.injEq] at hok
        obtain ⟨hreg, hcp⟩ := hok
        subst hcp
        refine ⟨rfl, rfl, ?_, ?_, ?_⟩
        · rw [← hreg]
        · intro h
          cases h
        · intro s' hs'
          cases hs'
          rfl
      | some last_msg =>
        cases hsum : get_message_summary last_msg with
        | error e => simp [hlast, hsum, Except.mapError, error_bind] at hok
        | ok str =>
          simp only [hlast, hsum, Except.mapError, ok_bind,
            Except.ok.injEq, Prod.mk.injEq] at hok
          obtain ⟨hreg, hcp⟩ := hok
          subst hcp
          refine ⟨rfl, rfl, ?_, ?_, ?_⟩
          · rw [← hreg]
          · intro h
            cases h
          · intro s' hs'
            cases hs'
            rfl

theorem le_foldl_max (l : List Int) (b : Int) : b ≤ l.foldl max b := by
  induction l generalizing b with
  | nil => exact le_refl b
  | cons x t ih => exact le_trans (le_max_left b x) (ih (max b x))

theorem mem_le_foldl_max {x : Int} {l : List Int} (h : x ∈ l) (b : Int) :
    x ≤ l.foldl max b := by
  induction l generalizing b with
  | nil => cases h
  | cons y t ih =>
    rcases List.mem_cons.1 h with rfl | h'
    · exact le_trans (le_max_right b x) (le_foldl_max t (max b x))
    · exact ih h' (max b y)

theorem foldl_max_mem (l : List Int) (b : Int) :
    l.foldl max b = b ∨ l.foldl max b ∈ l := by
  induction l generalizing b with
  | nil => exact Or.inl rfl
  | cons x t ih =>
    rcases ih (max b x) with h | h
    · rcases max_cases b x with ⟨he, _⟩ | ⟨he, _⟩
      · rw [List.foldl_cons, h, he]
        exact Or.inl rfl
      · rw [List.foldl_cons, h, he]
        exact Or.inr (List.mem_cons_self _ _)
    · exact Or.inr (List.mem_cons_of_mem _ h)

/-- Every message's sequence is bounded by `maxSeqOf`. -/
theorem le_maxSeqOf {m : Msg} {msgs : List Msg} (h : m ∈ msgs) :
    m.sequence_id ≤ maxSeqOf msgs :=
  mem_le_foldl_max (List.mem_map_of_mem (fun m => m.sequence_id) h) _

/-- `maxSeqOf` of a nonempty list is attained by one of its messages. -/
theorem maxSeqOf_mem {msgs : List Msg} (h : msgs ≠ []) :
    ∃ m ∈ msgs, m.sequence_id = maxSeqOf msgs := by
  cases msgs with
  | nil => exact absurd rfl h
  | cons m0 rest =>
    rcases foldl_max_mem ((m0 :: rest).map (fun m => m.sequence_id))
        (((m0 :: rest).map (fun m => m.sequence_id)).headD 0) with he | he
    · exact ⟨m0, List.mem_cons_self _ _, he.symm⟩
    · obtain ⟨m, hm, hseq⟩ := List.mem_map.1 he
      exact ⟨m, hm, hseq⟩

/-- Looking up the key just written returns the written value. -/
theorem dictGet_dictSet (l : List (String × Checkpoint)) (k : String) (v : Checkpoint) :
    dictGet (dictSet l k v) k = some v := by
  induction l with
  | nil => simp [dictGet, dictSet]
  | cons kv rest ih =>
    obtain ⟨k', v'⟩ := kv
    by_cases hk : k' = k
    · subst hk
      simp [dictGet, dictSet]
    · simp only [dictSet, if_neg hk]
      simpa [dictGet, List.find?, hk] using ih

/-- Entries after an update are the new pair or pre-existing entries. -/
theorem mem_dictSet {l : List (String × Checkpoint)} {k : String} {v : Checkpoint}
    {kv' : String × Checkpoint} (h : kv' ∈ dictSet l k v) :
    kv' = (k, v) ∨ kv' ∈ l := by
  induction l with
  | nil => simpa [dictSet] using h
  | cons kv rest ih =>
    obtain ⟨k', v'⟩ := kv
    by_cases hk : k' = k
    · subst hk
      rcases List.mem_cons.1 (by simpa [dictSet] using h) with rfl | h'
      · exact Or.inl rfl
      · exact Or.inr (List.mem_cons_of_mem _ h')
    · rcases List.mem_cons.1 (by simpa [dictSet, if_neg hk] using h) with rfl | h'
      · exact Or.inr (List.mem_cons_self _ _)
      · rcases ih h' with h'' | h''
        · exact Or.inl h''
        · exact Or.inr (List.mem_cons_of_mem _ h'')

theorem keys_mem_dictSet {l : List (String × Checkpoint)} {k : String} {v : Checkpoint}
    {x : String} (h : x ∈ (dictSet l k v).map Prod.fst) :
    x ∈ l.map Prod.fst ∨ x = k := by
  obtain ⟨kv', hkv', rfl⟩ := List.mem_map.1 h
  rcases mem_dictSet hkv' with rfl | h'
  · exact Or.inr rfl
  · exact Or.inl (List.mem_map_of_mem _ h')

/-- A dict update keeps the keys duplicate-free. -/
theorem nodup_keys_dictSet {l : List (String × Checkpoint)} {k : String} {v : Checkpoint}
    (h : (l.map Prod.fst).Nodup) : ((dictSet l k v).map Prod.fst).Nodup := by
  induction l with
  | nil => simp [dictSet]
  | cons kv rest ih =>
    obtain ⟨k', v'⟩ := kv
    simp only [List.map_cons, List.nodup_cons] at h
    obtain ⟨hk', hrest⟩ := h
    by_cases hk : k' = k
    · subst hk
      simp only [dictSet, eq_self_iff_true, if_true, List.map_cons, List.nodup_cons]
      exact ⟨hk', hrest⟩
    · simp only [dictSet, if_neg hk, List.map_cons, List.nodup_cons]
      refine ⟨?_, ih hrest⟩
      intro hmem
      rcases keys_mem_dictSet hmem with h' | h'
      · exact hk' h'
      · exact hk h'

/-- When every key is the `cid:name` of its record and keys are
duplicate-free, no two stored records share `(conversation_id, name)`. -/
theorem pairwise_values {l : List (String × Checkpoint)}
    (hcons : ∀ kv ∈ l, kv.1 = kv.2.conversation_id ++ ":" ++ kv.2.name)
    (hnodup : (l.map Prod.fst).Nodup) :
    (l.map Prod.snd).Pairwise
      (fun a b => a.conversation_id ≠ b.conversation_id ∨ a.name ≠ b.name) := by
  rw [List.pairwise_map]
  rw [List.Nodup, List.pairwise_map] at hnodup
  refine hnodup.imp_of_mem ?_
  intro a b ha hb hne
  by_contra hcon
  push_neg at hcon
  apply hne
  rw [hcons a ha, hcons b hb, hcon.1, hcon.2]

/-- An unfiltered listing is a permutation of the stored records. -/
theorem list_checkpoints_perm (reg : RegFile) :
    (list_checkpoints reg none).Perm ((loadCheckpoints reg).map Prod.snd) := by
  unfold list_checkpoints
  exact List.perm_insertionSort _ _

/-- C6 counterexample fixture: a stored checkpoint whose `slug` field is
JSON `null` (exactly what `save_checkpoint` writes for a conversation
without a slug). -/
def cpC6 : Checkpoint where
  conversation_id := "cA"
  sequence_id := 1
  name := "ck"
  summary := "s"
  slug := .nullv
  created_at := "T"

def regC6 : RegFile := .valid [("cA:ck", cpC6)]

/-- C6 counterexample: the claim says a null stored slug derives a slug
beginning with `"conversation"`.  `checkpoint.get('slug', 'conversation')`
returns the stored `None` (the key is present), and the f-string renders
it as `"None"`: restoring yields a conversation slugged
`"None-from-ck"`, different from the `"conversation-from-ck"` the claim
prescribes, so `restore` is not equivalent to `branch` with the claimed
slug. -/
theorem c6_null_slug_renders_none_counterexample :
    (restore_checkpoint dbC2 regC6 "cA" "ck" "cR" "NOW" idsC2).map
        (fun p => p.1.conversations.map (fun c => c.slug)) =
      .ok [some "alpha", some "None-from-ck"] ∧
    ("None-from-ck" ≠ "conversation-from-ck") ∧
    (branch_conversation dbC2 "cA" 1 (some "conversation-from-ck") "cR" "NOW" idsC2).map
        (fun p => p.1.conversations.map (fun c => c.slug)) =
      .ok [some "alpha", some "conversation-from-ck"] :=
  ⟨rfl, by decide, rfl⟩

/-- C6 amended: `restore_checkpoint` fails with NotFound when the
checkpoint is absent, and otherwise delegates to `branch_conversation`
at the checkpoint's conversation and sequence with the derived slug
`str(checkpoint.get('slug', 'conversation')) + "-from-" + name` — which
begins with `"conversation"` only when the `slug` *key* is missing; a
stored null renders as `"None"`. -/
theorem c6_restore_delegates_to_branch
    (db : DB) (reg : RegFile) (cid name : String)
    (new_id now : String) (msg_ids : Nat → String) :
    (get_checkpoint reg cid name = none →
      restore_checkpoint db reg cid name new_id now msg_ids =
        .error (.checkpointNotFound cid name)) ∧
    (∀ cp, get_checkpoint reg cid name = some cp →
      restore_checkpoint db reg cid name new_id now msg_ids =
        (branch_conversation db cp.conversation_id cp.sequence_id
          (some ((match cp.slug with
                  | .missing => "conversation"
                  | .nullv => "None"
                  | .strv s => s) ++ "-from-" ++ name)) new_id now msg_ids).mapError .branch) := by
  constructor
  · intro h
    simp [restore_checkpoint, h]
  · intro cp h
    simp [restore_checkpoint, h, restoreSlug]

/-- C6 witness: both parts applied at the null-slug registry — the
absent name fails NotFound, the present one delegates to
`branch_conversation` with slug `"None-from-ck"`. -/
theorem c6_restore_delegates_to_branch_witness :
    restore_checkpoint dbC2 regC6 "cA" "nope" "cR" "NOW" idsC2 =
      .error (.checkpointNotFound "cA" "nope") ∧
    restore_checkpoint dbC2 regC6 "cA" "ck" "cR" "NOW" idsC2 =
      (branch_conversation dbC2 "cA" 1 (some "None-from-ck") "cR" "NOW" idsC2).mapError .branch :=
  ⟨(c6_restore_delegates_to_branch dbC2 regC6 "cA" "nope" "cR" "NOW" idsC2).1 rfl,
   (c6_restore_delegates_to_branch dbC2 regC6 "cA" "ck" "cR" "NOW" idsC2).2 cpC6 rfl⟩

/-- C7/C10 counterexample fixture: an existing conversation whose only
message is `msgC4` (summarizing it raises, cf. C4). -/
def dbC7 : DB where
  conversations := [convA]
  messages := [msgC4]

/-- C7 counterexample: the claim quantifies over *every* existing
conversation with at least one message, but when summarizing the
resolved message raises (llm_data `"123"` on a user message), `save`
propagates the error before writing, so the subsequent `get` finds
nothing — no checkpoint record with the maximal sequence exists. -/
theorem c7_save_raises_counterexample :
    get_conversation dbC7 "cA" = some convA ∧
    dbC7.messages ≠ [] ∧
    save_checkpoint dbC7 .missing "cA" "n" none "TS" = .error (.pyErr .attributeError) ∧
    get_checkpoint .missing "cA" "n" = none :=
  ⟨rfl, by simp [dbC7], rfl, rfl⟩

/-- C7 amended: whenever `save_checkpoint` with the sequence omitted
*succeeds* (in particular whenever the cached summary computation does
not raise), the subsequent `get_checkpoint` on the written registry
returns exactly the saved record, whose `sequence_id` is the maximum
sequence among the conversation's messages at save time; and — given
the registry invariant that the file's keys are the `cid:name` of their
records, duplicate-free, which `save` itself preserves — `list` shows
no two records with the same `(conversation_id, name)`. -/
theorem c7_save_get_max_and_upsert
    (db : DB) (reg : RegFile) (cid name now : String) (reg' : RegFile) (cp : Checkpoint)
    (hok : save_checkpoint db reg cid name none now = .ok (reg', cp))
    (hwf_keys : ∀ kv ∈ loadCheckpoints reg, kv.1 = kv.2.conversation_id ++ ":" ++ kv.2.name)
    (hwf_nodup : ((loadCheckpoints reg).map Prod.fst).Nodup) :
    get_checkpoint reg' cid name = some cp ∧
    (∀ m ∈ db.messages, m.conversation_id = cid → m.sequence_id ≤ cp.sequence_id) ∧
    (∃ m ∈ db.messages, m.conversation_id = cid ∧ m.sequence_id = cp.sequence_id) ∧
    (list_checkpoints reg' none).Pairwise
      (fun a b => a.conversation_id ≠ b.conversation_id ∨ a.name ≠ b.name) := by
  obtain ⟨hcid, hname, hreg', hnone, _⟩ := save_ok_inv hok
  obtain ⟨hne, hmax⟩ := hnone rfl
  refine ⟨?_, ?_, ?_, ?_⟩
  · rw [hreg']
    unfold get_checkpoint
    exact dictGet_dictSet _ _ _
  · intro m hm hc
    rw [hmax]
    exact le_maxSeqOf (mem_get_messages.2 ⟨hm, msgSelected_none_iff.2 hc⟩)
  · obtain ⟨m, hmem, hseq⟩ := maxSeqOf_mem hne
    obtain ⟨hin, hsel⟩ := mem_get_messages.1 hmem
    exact ⟨m, hin, msgSelected_none_iff.1 hsel, by rw [hmax]; exact hseq⟩
  · have hcons' : ∀ kv ∈ dictSet (loadCheckpoints reg) (cid ++ ":" ++ name) cp,
        kv.1 = kv.2.conversation_id ++ ":" ++ kv.2.name := by
      intro kv hkv
      rcases mem_dictSet hkv with rfl | h
      · rw [hcid, hname]
      · exact hwf_keys kv h
    have hpair := pairwise_values hcons' (nodup_keys_dictSet hwf_nodup)
    have hsym : Symmetric (fun a b : Checkpoint =>
        a.conversation_id ≠ b.conversation_id ∨ a.name ≠ b.name) := by
      intro a b h
      rcases h with h | h
      · exact Or.inl h.symm
      · exact Or.inr h.symm
    rw [hreg']
    exact ((list_checkpoints_perm _).pairwise_iff (fun {_ _} h => hsym h)).2 hpair

/-- The record written by the C7 witness run. -/
def cpC7 : Checkpoint where
  conversation_id := "cA"
  sequence_id := 2
  name := "n"
  summary := "Agent: (response)"
  slug := .strv "alpha"
  created_at := "TS"

def regC7' : RegFile := .valid [("cA:n", cpC7)]

/-- C7 witness: saving `dbC2` (messages at sequences 1 and 2) without a
sequence stores sequence 2 — the maximum — and `get` returns it. -/
theorem c7_save_get_max_and_upsert_witness :
    get_checkpoint regC7' "cA" "n" = some cpC7 ∧
    (∀ m ∈ dbC2.messages, m.conversation_id = "cA" → m.sequence_id ≤ cpC7.sequence_id) ∧
    (∃ m ∈ dbC2.messages, m.conversation_id = "cA" ∧ m.sequence_id = cpC7.sequence_id) ∧
    (list_checkpoints regC7' none).Pairwise
      (fun a b => a.conversation_id ≠ b.conversation_id ∨ a.name ≠ b.name) :=
  c7_save_get_max_and_upsert dbC2 .missing "cA" "n" "TS" regC7' cpC7 rfl
    (by simp [loadCheckpoints]) (by simp [loadCheckpoints])

/-- C9: when the checkpoint file is missing or holds invalid JSON,
every registry operation acts on an empty registry — `get` is
not-found, `list` is empty, `delete` returns `false` without touching
the file — and the next successful `save` rewrites the file containing
exactly the one newly saved record, discarding the unreadable
content. -/
theorem c9_empty_registry_behaviour
    (reg : RegFile) (hreg : reg = .missing ∨ reg = .invalid) :
    (∀ cid name, get_checkpoint reg cid name = none) ∧
    (∀ filt, list_checkpoints reg filt = []) ∧
    (∀ cid name, delete_checkpoint reg cid name = (reg, false)) ∧
    (∀ db cid name seqOpt now reg' cp,
      save_checkpoint db reg cid name seqOpt now = .ok (reg', cp) →
      reg' = .valid [(cid ++ ":" ++ name, cp)]) := by
  have hload : loadCheckpoints reg = [] := by rcases hreg with rfl | rfl <;> rfl
  refine ⟨?_, ?_, ?_, ?_⟩
  · intro cid name
    unfold get_checkpoint
    rw [hload]
    rfl
  · intro filt
    unfold list_checkpoints
    rw [hload]
    rcases filt with _ | c
    · rfl
    · by_cases hc : c = "" <;> simp [hc]
  · intro cid name
    unfold delete_checkpoint
    rw [hload]
    rfl
  · intro db cid name seqOpt now reg' cp hok
    obtain ⟨_, _, hreg', _, _⟩ := save_ok_inv hok
    rw [hreg', hload]
    rfl

/-- C9 witness: the theorem applied to the missing-file state. -/
theorem c9_empty_registry_behaviour_witness :
    (∀ cid name, get_checkpoint .missing cid name = none) ∧
    (∀ filt, list_checkpoints .missing filt = []) ∧
    (∀ cid name, delete_checkpoint .missing cid name = (.missing, false)) ∧
    (∀ db cid name seqOpt now reg' cp,
      save_checkpoint db .missing cid name seqOpt now = .ok (reg', cp) →
      reg' = .valid [(cid ++ ":" ++ name, cp)]) :=
  c9_empty_registry_behaviour .missing (Or.inl rfl)

/-- C10 counterexample: the claim says `save` with an explicit
`sequence_id` succeeds for *every* existing conversation and every
value; but when a message does qualify and summarizing it raises
(`msgC4` at sequence 1), `save` propagates the error instead. -/
theorem c10_save_explicit_raises_counterexample :
    save_checkpoint dbC7 .missing "cA" "n" (some 1) "TS" =
      .error (.pyErr .attributeError) := rfl

/-- C10 amended: `save_checkpoint` with an explicit `sequence_id`
performs no range validation: for every existing conversation and every
explicit sequence below all of its messages (including any value for a
conversation with zero messages), it succeeds, stores the given
`sequence_id` verbatim and caches the summary `"(empty)"`; when
messages qualify, the explicit sequence is still stored verbatim
provided summarizing the last qualifying message does not raise. -/
theorem c10_save_explicit_sequence_unvalidated
    (db : DB) (reg : RegFile) (cid name : String) (s : Int) (now : String) (conv : Conv)
    (hconv : get_conversation db cid = some conv)
    (hnone : ∀ m ∈ db.messages, m.conversation_id = cid → s < m.sequence_id) :
    save_checkpoint db reg cid name (some s) now =
      .ok (.valid (dictSet (loadCheckpoints reg) (cid ++ ":" ++ name)
          { conversation_id := cid, sequence_id := s, name := name, summary := "(empty)",
            slug := match conv.slug with | none => .nullv | some t => .strv t,
            created_at := now }),
        { conversation_id := cid, sequence_id := s, name := name, summary := "(empty)",
          slug := match conv.slug with | none => .nullv | some t => .strv t,
          created_at := now }) := by
  unfold save_checkpoint
  simp only [hconv, ok_bind, get_messages_eq_nil hnone]
  rfl

/-- C10 witness: saving `dbC2` at explicit sequence 0 — below both of
its messages — succeeds with summary `"(empty)"` and sequence 0. -/
theorem c10_save_explicit_sequence_unvalidated_witness :
    save_checkpoint dbC2 .missing "cA" "low" (some 0) "TS" =
      .ok (.valid [("cA:low", Checkpoint.mk "cA" 0 "low" "(empty)" (.strv "alpha") "TS")],
        Checkpoint.mk "cA" 0 "low" "(empty)" (.strv "alpha") "TS") :=
  c10_save_explicit_sequence_unvalidated dbC2 .missing "cA" "low" 0 "TS" convA rfl (by decide)

end Shelley
